import Mathlib

/-!
# Shallow embedding of the nexus-kyc-pro case-pipeline server (src/index.js)

The server is an Express application whose routes are parameterized SQL
statements against five tables (companies, kyc_cases, compliance_checks,
documents, ubos).  We embed the database as explicit lists of records, a
route handler as a function from the database (plus the request data and
the values the handler draws from the environment: the clock and
Math.random) to a result paired with the successor database, and SQL
constraint failures (UNIQUE on kyc_cases.case_number, the FOREIGN KEY on
kyc_cases.company_id) as `Except` errors.  The BEGIN/COMMIT/ROLLBACK
discipline of POST /api/cases is embedded by accumulating all writes in a
transaction-local copy of the database that becomes the new state only on
the success path, while every error path returns the original state.
-/

namespace NexusKYC

/-- Error taxonomy of the routes: 404 responses, 400 validation responses,
and 500 responses produced by a storage failure (caught exception). -/
inductive Err where
  | notFound
  | validation (msg : String)
  | persistence (msg : String)
deriving DecidableEq, Repr

/-- A row of `companies` (src/index.js CREATE TABLE companies). -/
structure Company where
  id : Nat
  user_id : Nat
  name : String
  registration_number : Option String := none
  legal_form : Option String := none
  status : String := "active"
  address_line1 : Option String := none
  address_line2 : Option String := none
  city : Option String := none
  postal_code : Option String := none
  country : String := "DE"
  website : Option String := none
  email : Option String := none
  phone : Option String := none
  vat_id : Option String := none
  trade_register_court : Option String := none
  trade_register_number : Option String := none
  managing_directors : String := "[]"
  shareholders : String := "[]"
  annual_revenue : Option Int := none
  employee_count : Option Int := none
  founding_date : Option Nat := none
  handelsregister_data : Option String := none
  transparenzregister_data : Option String := none
  risk_score : Int := 0
  risk_level : String := "low"
  verified : Bool := false
  created_at : Nat := 0
  updated_at : Nat := 0
deriving DecidableEq, Repr

/-- A row of `kyc_cases` (src/index.js CREATE TABLE kyc_cases).
`steps_completed` is the INTEGER[] column, `step_status` the JSONB map
from step to stage-status string. -/
structure KycCase where
  id : Nat
  user_id : Nat
  company_id : Option Nat := none
  case_number : String
  case_type : String := "standard"
  status : String := "pending"
  risk_level : String := "medium"
  risk_score : Int := 0
  current_step : Int := 1
  steps_completed : List Int := []
  step_status : List (Int × String) := []
  priority : String := "normal"
  due_date : Option Nat := none
  assigned_to : Option Nat := none
  customer_name : Option String := none
  customer_email : Option String := none
  customer_phone : Option String := none
  notes : Option String := none
  internal_notes : Option String := none
  rejection_reason : Option String := none
  audit_trail : String := "[]"
  created_at : Nat := 0
  updated_at : Nat := 0
  completed_at : Option Nat := none
  submitted_at : Option Nat := none
deriving DecidableEq, Repr

/-- A row of `compliance_checks` (src/index.js CREATE TABLE compliance_checks). -/
structure ComplianceCheck where
  id : Nat
  case_id : Nat
  entity_type : Option String := none
  entity_id : Option Nat := none
  check_type : String
  provider : Option String := none
  status : String := "pending"
  result : Option String := none
  risk_score : Option Int := none
  risk_level : Option String := none
  hits_count : Int := 0
  checked_at : Option Nat := none
  expires_at : Option Nat := none
  created_at : Nat := 0
deriving DecidableEq, Repr

/-- The persisted state the case-pipeline routes touch, with the SERIAL
sequences made explicit. -/
structure Db where
  companies : List Company := []
  cases : List KycCase := []
  checks : List ComplianceCheck := []
  nextCompanyId : Nat := 1
  nextCaseId : Nat := 1
  nextCheckId : Nat := 1
deriving DecidableEq, Repr

/-- Request body of POST /api/cases (src/index.js line 596).  A JSON field
that is absent is `none`; JS truthiness of an empty-string company_name is
handled at the use site. -/
structure CreateCaseReq where
  company_id : Option Nat := none
  company_name : Option String := none
  customer_name : Option String := none
  customer_email : Option String := none
  customer_phone : Option String := none
  case_type : Option String := none
  priority : Option String := none
  due_date : Option Nat := none
  notes : Option String := none
deriving DecidableEq, Repr

/-- JS truthiness of the `company_name` body field: present and non-empty. -/
def truthyName : Option String → Bool
  | some nm => nm ≠ ""
  | none => false

/-- POST /api/cases (src/index.js lines 591-651).  `now` is Date.now(),
`randComp` and `randCase` the Math.random() draws for the placeholder
registration number and for the case-number suffix.  The handler runs
BEGIN, optionally inserts a company (when no company_id is supplied but a
truthy company_name is), inserts the case with current_step = 1,
steps_completed = [1], step_status = step 1 in_progress, inserts one
pending compliance check per type (pep, sanctions, adverse_media), then
COMMITs; any insert failure (case_number UNIQUE violation, company_id
FOREIGN KEY violation) triggers ROLLBACK, leaving the database unchanged. -/
def createCase (db : Db) (uid : Nat) (req : CreateCaseReq)
    (now randComp randCase : Nat) : Except Err KycCase × Db :=
  let mkComp : Bool := req.company_id.isNone && truthyName req.company_name
  let newComp : Company :=
    { id := db.nextCompanyId
      user_id := uid
      name := req.company_name.getD ""
      registration_number := some ("HRB" ++ toString (10000 + randComp % 90000))
      legal_form := some "GmbH"
      city := some "Berlin"
      status := "pending"
      created_at := now
      updated_at := now }
  let finalCompanyId := if mkComp then some db.nextCompanyId else req.company_id
  let tx :=
    if mkComp then
      { db with companies := db.companies ++ [newComp]
                nextCompanyId := db.nextCompanyId + 1 }
    else db
  let fkOk : Bool :=
    match finalCompanyId with
    | none => true
    | some cid => tx.companies.any (fun c => c.id = cid)
  let caseNumber := "KYC-" ++ toString now ++ "-" ++ toString (randCase % 1000)
  if !fkOk then
    (Except.error (Err.persistence "insert or update on table kyc_cases violates foreign key constraint"), db)
  else if tx.cases.any (fun c => c.case_number = caseNumber) then
    (Except.error (Err.persistence "duplicate key value violates unique constraint"), db)
  else
    let kc : KycCase :=
      { id := tx.nextCaseId
        user_id := uid
        company_id := finalCompanyId
        case_number := caseNumber
        case_type := req.case_type.getD "standard"
        customer_name := req.customer_name
        customer_email := req.customer_email
        customer_phone := req.customer_phone
        priority := req.priority.getD "normal"
        due_date := req.due_date
        notes := req.notes
        current_step := 1
        steps_completed := [1]
        step_status := [(1, "in_progress")]
        created_at := now
        updated_at := now }
    let tx := { tx with cases := tx.cases ++ [kc], nextCaseId := tx.nextCaseId + 1 }
    let newChecks : List ComplianceCheck :=
      [ { id := tx.nextCheckId, case_id := kc.id, check_type := "pep",
          status := "pending", created_at := now },
        { id := tx.nextCheckId + 1, case_id := kc.id, check_type := "sanctions",
          status := "pending", created_at := now },
        { id := tx.nextCheckId + 2, case_id := kc.id, check_type := "adverse_media",
          status := "pending", created_at := now } ]
    let tx := { tx with checks := tx.checks ++ newChecks, nextCheckId := tx.nextCheckId + 3 }
    (Except.ok kc, tx)

/-- JSONB map assignment `stepStatus[step] = status`. -/
def setStepStatus (m : List (Int × String)) (step : Int) (status : String) :
    List (Int × String) :=
  if m.any (fun p => p.1 = step) then
    m.map (fun p => if p.1 = step then (step, status) else p)
  else
    m ++ [(step, status)]

/-- The in-memory mutation PATCH /api/cases/:id/step performs on the row it
read (src/index.js lines 736-749): append `step` to steps_completed only
when `status` is exactly "completed" and the step is not already present,
set stepStatus[step] = status, set current_step = step, stamp updated_at. -/
def stepUpdate (kc : KycCase) (step : Int) (status : String) (now : Nat) : KycCase :=
  let steps := kc.steps_completed
  let steps := if status = "completed" && !steps.contains step then steps ++ [step] else steps
  { kc with current_step := step
            steps_completed := steps
            step_status := setStepStatus kc.step_status step status
            updated_at := now }

/-- PATCH /api/cases/:id/step (src/index.js lines 721-770).  The handler
first reads the row scoped by (id, user_id) and 404s when absent; the
UPDATE itself is keyed by id alone, as in the source. -/
def advanceStep (db : Db) (uid caseId : Nat) (step : Int) (status : String)
    (now : Nat) : Except Err KycCase × Db :=
  match db.cases.find? (fun kc => kc.id = caseId && kc.user_id = uid) with
  | none => (Except.error Err.notFound, db)
  | some kc =>
      let kc' := stepUpdate kc step status now
      (Except.ok kc',
       { db with cases := db.cases.map (fun c => if c.id = caseId then kc' else c) })

/-- A sequence of PATCH /api/cases/:id/step calls that all carry the same
step and status; each element of `times` is the CURRENT_TIMESTAMP of one
call. -/
def advanceSeq (db : Db) (uid cid : Nat) (step : Int) (status : String) :
    List Nat → Db
  | [] => db
  | n :: rest => advanceSeq (advanceStep db uid cid step status n).2 uid cid step status rest

/-! ## GET /api/cases/:id — SELECT kc.*, c.* and the node-postgres row merge

node-postgres builds each result row as a JS object by assigning the
selected columns in order; when two columns share a name the later
assignment overwrites the earlier value.  `SELECT kc.*, c.*` therefore
yields an object in which every column name that exists in both
`kyc_cases` and `companies` carries the company side's value (NULL for
every `c.*` column when the LEFT JOIN finds no company). -/

/-- SQL values as they appear in a result row. -/
inductive Val where
  | null
  | int (i : Int)
  | str (s : String)
  | bool (b : Bool)
  | arr (l : List Int)
  | json (s : String)
deriving DecidableEq, Repr

/-- Lift an optional integer column. -/
def Val.ofOptInt : Option Int → Val
  | some i => Val.int i
  | none => Val.null

/-- Lift an optional integer column stored as Nat. -/
def Val.ofOptNat : Option Nat → Val
  | some n => Val.int n
  | none => Val.null

/-- Lift an optional text column. -/
def Val.ofOptStr : Option String → Val
  | some s => Val.str s
  | none => Val.null

/-- The `kc.*` columns of a kyc_cases row, in schema order. -/
def caseColumns (kc : KycCase) : List (String × Val) :=
  [ ("id", Val.int kc.id),
    ("user_id", Val.int kc.user_id),
    ("company_id", Val.ofOptNat kc.company_id),
    ("case_number", Val.str kc.case_number),
    ("case_type", Val.str kc.case_type),
    ("status", Val.str kc.status),
    ("risk_level", Val.str kc.risk_level),
    ("risk_score", Val.int kc.risk_score),
    ("current_step", Val.int kc.current_step),
    ("steps_completed", Val.arr kc.steps_completed),
    ("step_status", Val.json (toString (repr kc.step_status))),
    ("priority", Val.str kc.priority),
    ("due_date", Val.ofOptNat kc.due_date),
    ("assigned_to", Val.ofOptNat kc.assigned_to),
    ("customer_name", Val.ofOptStr kc.customer_name),
    ("customer_email", Val.ofOptStr kc.customer_email),
    ("customer_phone", Val.ofOptStr kc.customer_phone),
    ("notes", Val.ofOptStr kc.notes),
    ("internal_notes", Val.ofOptStr kc.internal_notes),
    ("rejection_reason", Val.ofOptStr kc.rejection_reason),
    ("audit_trail", Val.json kc.audit_trail),
    ("created_at", Val.int kc.created_at),
    ("updated_at", Val.int kc.updated_at),
    ("completed_at", Val.ofOptNat kc.completed_at),
    ("submitted_at", Val.ofOptNat kc.submitted_at) ]

/-- The `c.*` columns of the LEFT JOINed companies row, in schema order;
all NULL when the join produced no company. -/
def companyColumns : Option Company → List (String × Val)
  | some c =>
    [ ("id", Val.int c.id),
      ("user_id", Val.int c.user_id),
      ("name", Val.str c.name),
      ("registration_number", Val.ofOptStr c.registration_number),
      ("legal_form", Val.ofOptStr c.legal_form),
      ("status", Val.str c.status),
      ("address_line1", Val.ofOptStr c.address_line1),
      ("address_line2", Val.ofOptStr c.address_line2),
      ("city", Val.ofOptStr c.city),
      ("postal_code", Val.ofOptStr c.postal_code),
      ("country", Val.str c.country),
      ("website", Val.ofOptStr c.website),
      ("email", Val.ofOptStr c.email),
      ("phone", Val.ofOptStr c.phone),
      ("vat_id", Val.ofOptStr c.vat_id),
      ("trade_register_court", Val.ofOptStr c.trade_register_court),
      ("trade_register_number", Val.ofOptStr c.trade_register_number),
      ("managing_directors", Val.json c.managing_directors),
      ("shareholders", Val.json c.shareholders),
      ("annual_revenue", Val.ofOptInt c.annual_revenue),
      ("employee_count", Val.ofOptInt c.employee_count),
      ("founding_date", Val.ofOptNat c.founding_date),
      ("handelsregister_data", Val.ofOptStr c.handelsregister_data),
      ("transparenzregister_data", Val.ofOptStr c.transparenzregister_data),
      ("risk_score", Val.int c.risk_score),
      ("risk_level", Val.str c.risk_level),
      ("verified", Val.bool c.verified),
      ("created_at", Val.int c.created_at),
      ("updated_at", Val.int c.updated_at) ]
  | none =>
    [ ("id", Val.null), ("user_id", Val.null), ("name", Val.null),
      ("registration_number", Val.null), ("legal_form", Val.null),
      ("status", Val.null), ("address_line1", Val.null),
      ("address_line2", Val.null), ("city", Val.null),
      ("postal_code", Val.null), ("country", Val.null),
      ("website", Val.null), ("email", Val.null), ("phone", Val.null),
      ("vat_id", Val.null), ("trade_register_court", Val.null),
      ("trade_register_number", Val.null), ("managing_directors", Val.null),
      ("shareholders", Val.null), ("annual_revenue", Val.null),
      ("employee_count", Val.null), ("founding_date", Val.null),
      ("handelsregister_data", Val.null),
      ("transparenzregister_data", Val.null), ("risk_score", Val.null),
      ("risk_level", Val.null), ("verified", Val.null),
      ("created_at", Val.null), ("updated_at", Val.null) ]

/-- JS object property assignment: overwrite in place when the key exists,
append otherwise. -/
def setField (obj : List (String × Val)) (k : String) (v : Val) :
    List (String × Val) :=
  if obj.any (fun p => p.1 = k) then
    obj.map (fun p => if p.1 = k then (k, v) else p)
  else
    obj ++ [(k, v)]

/-- Build the JS row object from the selected columns in order. -/
def buildRow (cols : List (String × Val)) : List (String × Val) :=
  cols.foldl (fun o p => setField o p.1 p.2) []

/-- Property read on a row object (absent key reads as NULL). -/
def getField (obj : List (String × Val)) (k : String) : Val :=
  match obj.find? (fun p => p.1 = k) with
  | some p => p.2
  | none => Val.null

/-- GET /api/cases/:id (src/index.js lines 685-719): the scoped SELECT
kc.*, c.* with its LEFT JOIN, 404 when no row matches (id, user_id),
otherwise the merged row object plus the compliance checks collection. -/
def getCaseDetail (db : Db) (uid caseId : Nat) :
    Except Err (List (String × Val) × List ComplianceCheck) :=
  match db.cases.find? (fun kc => kc.id = caseId && kc.user_id = uid) with
  | none => Except.error Err.notFound
  | some kc =>
      let comp := kc.company_id.bind (fun cid => db.companies.find? (fun c => c.id = cid))
      let row := buildRow (caseColumns kc ++ companyColumns comp)
      Except.ok (row, db.checks.filter (fun cc => cc.case_id = kc.id))

/-! ## GET /api/companies/search-handelsregister -/

/-- One item of the external Handelsregister collaborator's JSON array.
The route reads each attribute through a chain of || fallbacks
(item.name || item.firma || ...); the record carries the value that chain
resolves to. -/
structure ExtItem where
  name : String
  registration_number : String
  legal_form : String
  address : String
  city : String
  postal_code : String
  status : Option String := none
  court : String := ""
  register_number : String := ""
deriving DecidableEq, Repr

/-- A formatted result row of the search route. -/
structure Candidate where
  name : String
  registration_number : String
  legal_form : String
  address : String
  city : String
  postal_code : String
  country : String
  status : String
  trade_register_court : String
  register_number : String
  source : String
  note : Option String := none
deriving DecidableEq, Repr

/-- The response body: source tag and result list. -/
structure SearchResp where
  source : String
  results : List Candidate
deriving DecidableEq, Repr

/-- Formatting of one collaborator item on the success path. -/
def formatExtItem (item : ExtItem) : Candidate :=
  { name := item.name
    registration_number := item.registration_number
    legal_form := item.legal_form
    address := item.address
    city := item.city
    postal_code := item.postal_code
    country := "DE"
    status := item.status.getD "active"
    trade_register_court := item.court
    register_number := item.register_number
    source := "handelsregister_api" }

/-- GET /api/companies/search-handelsregister (src/index.js lines
392-473).  `collab` is the external call's outcome: `none` when the axios
request failed (timeout, transport error, non-2xx), `some items` its
parsed JSON array otherwise.  A query shorter than 3 characters is
rejected with 400 before the external call; a failed collaborator or an
empty result array falls through to the demo branch, which fabricates
exactly one candidate with source "demo" (rand₁, rand₂ are the two
Math.random() draws for its register numbers). -/
def searchHandelsregister (q : String) (collab : Option (List ExtItem))
    (rand₁ rand₂ : Nat) : Except Err SearchResp :=
  if q.length < 3 then
    Except.error (Err.validation "Mindestens 3 Zeichen erforderlich")
  else
    match collab with
    | some items =>
        if items.length > 0 then
          Except.ok { source := "handelsregister_api", results := items.map formatExtItem }
        else
          Except.ok
            { source := "demo"
              results :=
                [ { name := q
                    registration_number := "HRB" ++ toString (10000 + rand₁ % 90000)
                    legal_form := "GmbH"
                    address := "Musterstrasse 1, 10115 Berlin"
                    city := "Berlin"
                    postal_code := "10115"
                    country := "DE"
                    status := "active"
                    trade_register_court := "Amtsgericht Berlin-Charlottenburg"
                    register_number := "HRB " ++ toString (10000 + rand₂ % 90000)
                    source := "demo"
                    note := some "DEMO-DATEN: Handelsregister API nicht erreichbar" } ] }
    | none =>
        Except.ok
          { source := "demo"
            results :=
              [ { name := q
                  registration_number := "HRB" ++ toString (10000 + rand₁ % 90000)
                  legal_form := "GmbH"
                  address := "Musterstrasse 1, 10115 Berlin"
                  city := "Berlin"
                  postal_code := "10115"
                  country := "DE"
                  status := "active"
                  trade_register_court := "Amtsgericht Berlin-Charlottenburg"
                  register_number := "HRB " ++ toString (10000 + rand₂ % 90000)
                  source := "demo"
                  note := some "DEMO-DATEN: Handelsregister API nicht erreichbar" } ] }

/-! ## GET /api/dashboard/stats -/

/-- The `overview` object of the stats response. -/
structure Overview where
  totalCases : Nat
  activeCases : Nat
  pendingCases : Nat
  completedCases : Nat
  completionRate : Nat
  totalCompanies : Nat
  pendingChecks : Nat
  highRiskCases : Nat
deriving DecidableEq, Repr

/-- SELECT status, COUNT(*) FROM kyc_cases WHERE user_id = uid GROUP BY
status: one (status, count) row per distinct status value. -/
def groupByStatus (cs : List KycCase) : List (String × Nat) :=
  (cs.map (fun kc => kc.status)).dedup.map
    (fun st => (st, (cs.filter (fun kc => kc.status = st)).length))

/-- `casesResult.rows.find(r => r.status === s)?.count || 0`. -/
def statusCount (rows : List (String × Nat)) (s : String) : Nat :=
  match rows.find? (fun r => r.1 = s) with
  | some r => r.2
  | none => 0

/-- GET /api/dashboard/stats (src/index.js lines 331-387).  totalCases
reduces the grouped counts; completionRate is
`totalCases > 0 ? Math.round((completed / totalCases) * 100) : 0` — the
guarded branch is embedded as the rational rounding
(200·completed + total) / (2·total) of the float expression, and the
zero-total branch is the explicit 0. -/
def getOverview (db : Db) (uid : Nat) : Overview :=
  let rows := groupByStatus (db.cases.filter (fun kc => kc.user_id = uid))
  let totalCases := rows.foldl (fun a r => a + r.2) 0
  let completedCases := statusCount rows "completed"
  { totalCases := totalCases
    activeCases := statusCount rows "active"
    pendingCases := statusCount rows "pending"
    completedCases := completedCases
    completionRate :=
      if totalCases > 0 then (200 * completedCases + totalCases) / (2 * totalCases) else 0
    totalCompanies := (db.companies.filter (fun c => c.user_id = uid)).length
    pendingChecks :=
      (db.checks.filter (fun cc =>
        cc.status = "pending" &&
        db.cases.any (fun kc => kc.id = cc.case_id && kc.user_id = uid))).length
    highRiskCases :=
      (db.cases.filter (fun kc => kc.user_id = uid && kc.risk_level = "high")).length }

/-! ## POST /api/compliance/screen -/

/-- The synthesized screening outcome for one check type: status "clear",
risk_score 0, risk_level "low", plus a details payload keyed by type. -/
def screenResultJson (checkType : String) : String :=
  if checkType = "pep" then
    "status clear, databases_checked EU PEP Database, UN Sanctions, OFAC, HMT, match_count 0"
  else if checkType = "sanctions" then
    "status clear, lists_checked EU Consolidated List, OFAC SDN, UN Security Council, HM Treasury, match_count 0"
  else
    "status clear, matches none"

/-- POST /api/compliance/screen (src/index.js lines 836-883).  For each
requested check type the handler synthesizes the fixed clear result and
unconditionally INSERTs a new compliance_checks row — there is no UPDATE
of the stub created at case creation and no uniqueness over
(case_id, check_type). -/
def screenChecks (db : Db) (case_id : Nat) (entity_type : Option String)
    (entity_id : Option Nat) (check_types : List String) (now : Nat) :
    List ComplianceCheck × Db :=
  check_types.foldl
    (fun (acc : List ComplianceCheck × Db) ct =>
      let (results, db) := acc
      let row : ComplianceCheck :=
        { id := db.nextCheckId
          case_id := case_id
          entity_type := entity_type
          entity_id := entity_id
          check_type := ct
          status := "clear"
          result := some (screenResultJson ct)
          risk_score := some 0
          risk_level := some "low"
          checked_at := some now
          created_at := now }
      (results ++ [row],
       { db with checks := db.checks ++ [row], nextCheckId := db.nextCheckId + 1 }))
    ([], db)

/-! ## Theorems about the embedded routes -/

/-- Claim C6: for every case_id and every owner who does not own that case
(including when no such case exists at all), get_case_detail fails with
NotFound — it returns no case data and the failure value is the very same
`Except.error Err.notFound` produced when the case does not exist, so the
two situations are indistinguishable. -/
theorem getCaseDetail_wrong_owner_notFound (db : Db) (uid cid : Nat)
    (h : ∀ kc ∈ db.cases, kc.id ≠ cid ∨ kc.user_id ≠ uid) :
    getCaseDetail db uid cid = Except.error Err.notFound := by
  unfold getCaseDetail
  have hnone : db.cases.find? (fun kc => kc.id = cid && kc.user_id = uid) = none := by
    apply List.find?_eq_none.mpr
    intro kc hkc
    rcases h kc hkc with h1 | h1 <;> simp [h1]
  rw [hnone]

/-- Witness for C6: a database holding case 1 owned by user 2, read by
user 1, yields NotFound — the same value as for an absent case. -/
theorem getCaseDetail_wrong_owner_notFound_witness :
    getCaseDetail { cases := [{ id := 1, user_id := 2, case_number := "KYC-77-1" }] } 1 1 =
      Except.error Err.notFound :=
  getCaseDetail_wrong_owner_notFound _ 1 1 (by decide)

/-- Claim C7: search_external_registry rejects every query shorter than 3
characters with the validation error, before any external call; for a
query of length at least 3, a failed collaborator call (`none`) or an
empty collaborator result (`some []`) yields a normal response holding
exactly one candidate whose source is "demo". -/
theorem searchHandelsregister_short_query_and_demo_fallback (q : String) (r₁ r₂ : Nat) :
    (q.length < 3 → ∀ collab,
      searchHandelsregister q collab r₁ r₂ =
        Except.error (Err.validation "Mindestens 3 Zeichen erforderlich")) ∧
    (3 ≤ q.length → ∀ collab, collab = none ∨ collab = some [] →
      ∃ c, searchHandelsregister q collab r₁ r₂ =
             Except.ok { source := "demo", results := [c] } ∧ c.source = "demo") := by
  constructor
  · intro hlt collab
    unfold searchHandelsregister
    rw [if_pos hlt]
  · intro hge collab hc
    have hnlt : ¬ q.length < 3 := Nat.not_lt.mpr hge
    rcases hc with rfl | rfl
    · simp only [searchHandelsregister, if_neg hnlt]
      exact ⟨_, rfl, rfl⟩
    · simp only [searchHandelsregister, if_neg hnlt]
      exact ⟨_, rfl, rfl⟩

/-- Witness for C7: the query "ab" is rejected, and "Acme" with a failed
collaborator produces the single demo candidate. -/
theorem searchHandelsregister_witness :
    ("ab".length < 3 ∧
      searchHandelsregister "ab" none 7 9 =
        Except.error (Err.validation "Mindestens 3 Zeichen erforderlich")) ∧
    (3 ≤ "Acme".length ∧
      ∃ c, searchHandelsregister "Acme" none 7 9 =
             Except.ok { source := "demo", results := [c] } ∧ c.source = "demo") :=
  ⟨⟨by decide,
    (searchHandelsregister_short_query_and_demo_fallback "ab" 7 9).1 (by decide) none⟩,
   ⟨by decide,
    (searchHandelsregister_short_query_and_demo_fallback "Acme" 7 9).2 (by decide) none
      (Or.inl rfl)⟩⟩

/-- Claim C9: for an owner with zero cases the overview reports 0 for the
case counts, the pending-check count and the high-risk count, and its
completion rate is the explicit 0 of the zero-total guard (the division
branch is not taken). -/
theorem getOverview_zero_cases (db : Db) (uid : Nat)
    (h : ∀ kc ∈ db.cases, kc.user_id ≠ uid) :
    (getOverview db uid).totalCases = 0 ∧
    (getOverview db uid).activeCases = 0 ∧
    (getOverview db uid).pendingCases = 0 ∧
    (getOverview db uid).completedCases = 0 ∧
    (getOverview db uid).completionRate = 0 ∧
    (getOverview db uid).pendingChecks = 0 ∧
    (getOverview db uid).highRiskCases = 0 := by
  have hfil : db.cases.filter (fun kc => kc.user_id = uid) = [] :=
    List.filter_eq_nil_iff.mpr (fun kc hkc => by simp [h kc hkc])
  have hany : ∀ cc : ComplianceCheck,
      db.cases.any (fun kc => kc.id = cc.case_id && kc.user_id = uid) = false := by
    intro cc
    apply List.any_eq_false.mpr
    intro kc hkc
    simp [h kc hkc]
  have hchecks : db.checks.filter (fun cc =>
      cc.status = "pending" &&
      db.cases.any (fun kc => kc.id = cc.case_id && kc.user_id = uid)) = [] :=
    List.filter_eq_nil_iff.mpr (fun cc _ => by simp [hany cc])
  have hhigh : db.cases.filter (fun kc => kc.user_id = uid && kc.risk_level = "high") = [] :=
    List.filter_eq_nil_iff.mpr (fun kc hkc => by simp [h kc hkc])
  simp [getOverview, hfil, hchecks, hhigh, groupByStatus, statusCount]

/-- Witness for C9: user 9 owns no case in a database that still holds a
case and a pending check of user 1; every reported count for user 9 is 0. -/
theorem getOverview_zero_cases_witness :
    (getOverview
        { cases := [{ id := 1, user_id := 1, case_number := "KYC-1-1" }],
          checks := [{ id := 1, case_id := 1, check_type := "pep", status := "pending" }] }
        9).totalCases = 0 ∧
    (getOverview
        { cases := [{ id := 1, user_id := 1, case_number := "KYC-1-1" }],
          checks := [{ id := 1, case_id := 1, check_type := "pep", status := "pending" }] }
        9).completionRate = 0 :=
  ⟨(getOverview_zero_cases _ 9 (by decide)).1,
   (getOverview_zero_cases _ 9 (by decide)).2.2.2.2.1⟩

/-- Claim C3 (failing input): advance_step performs no range validation.
On the case freshly created by create_case, the call with step = 99 and
status "completed" succeeds, persists current_step = 99 and appends 99 to
steps_completed, violating the {1..6} invariant the spec requires the
operation to enforce by rejection. -/
theorem advanceStep_persists_out_of_range_step :
    ∃ kc',
      (advanceStep ((createCase {} 1 { company_name := some "Acme GmbH" } 100 7 42).2)
          1 1 99 "completed" 200).1 = Except.ok kc' ∧
      kc'.current_step = 99 ∧ kc'.steps_completed = [1, 99] :=
  ⟨_, rfl, rfl, rfl⟩

/-- Claim C8 (failing input): POST /api/compliance/screen INSERTs a fresh
compliance_checks row on every call.  Starting from the case created by
create_case (which already has its one "pep" stub), screening the case
for "pep" twice leaves three rows for the pair (case 1, "pep") — the run
is not idempotent and the existing row is never updated in place. -/
theorem screenChecks_rerun_duplicates_rows :
    (((screenChecks
          ((screenChecks ((createCase {} 1 { company_name := some "Acme GmbH" } 100 7 42).2)
              1 (some "company") none ["pep"] 300).2)
          1 (some "company") none ["pep"] 400).2).checks.filter
        (fun cc => cc.case_id = 1 && cc.check_type = "pep")).length = 3 := by
  rfl

/-- Claim C1 (counterexample): a create_case call that supplies neither a
company id nor a company name commits a case whose company_id is NULL, so
not every created case resolves to a company. -/
theorem createCase_can_leave_company_null :
    ∃ kc, (createCase {} 1 {} 100 7 42).1 = Except.ok kc ∧ kc.company_id = none :=
  ⟨_, rfl, rfl⟩

/-- Claim C5 (counterexample): the scenario create_case(owner 1,
company_name "Acme GmbH") commits a case whose steps_completed is [1],
not the empty set: the INSERT hard-codes steps_completed = [1] (and marks
step 1 in_progress). -/
theorem createCase_steps_not_empty :
    ∃ kc, (createCase {} 1 { company_name := some "Acme GmbH" } 100 7 42).1 = Except.ok kc ∧
      kc.steps_completed = [1] ∧ kc.steps_completed ≠ [] :=
  ⟨_, rfl, rfl, by decide⟩

/-- After the overwrite pass of `setField`, the key `a` reads the new
value. -/
lemma find?_map_overwrite_eq (obj : List (String × Val)) (a : String) (v : Val)
    (h : obj.any (fun p => p.1 = a) = true) :
    (obj.map (fun p => if p.1 = a then (a, v) else p)).find? (fun p => p.1 = a) =
      some (a, v) := by
  induction obj with
  | nil => simp at h
  | cons p rest ih =>
    by_cases hpa : p.1 = a
    · simp [List.find?_cons, hpa]
    · have hrest : rest.any (fun q => q.1 = a) = true := by
        simp only [List.any_cons, Bool.or_eq_true, decide_eq_true_eq] at h
        exact List.any_eq_true.mpr (by
          rcases h with h | h
          · exact absurd h hpa
          · exact List.any_eq_true.mp h)
      simp [List.find?_cons, hpa, ih hrest]

/-- The overwrite pass of `setField` leaves every other key's first
occurrence unchanged. -/
lemma find?_map_overwrite_ne (obj : List (String × Val)) (a : String) (v : Val)
    (k : String) (hak : ¬ a = k) :
    (obj.map (fun p => if p.1 = a then (a, v) else p)).find? (fun p => p.1 = k) =
      obj.find? (fun p => p.1 = k) := by
  induction obj with
  | nil => rfl
  | cons p rest ih =>
    rw [List.map_cons]
    by_cases hpa : p.1 = a
    · have hpk : ¬ p.1 = k := fun h => hak (hpa.symm.trans h)
      rw [if_pos hpa, List.find?_cons_of_neg _ (by simp [hak]),
        List.find?_cons_of_neg _ (by simp [hpk])]
      exact ih
    · rw [if_neg hpa]
      by_cases hpk : p.1 = k
      · rw [List.find?_cons_of_pos _ (by simp [hpk]),
          List.find?_cons_of_pos _ (by simp [hpk])]
      · rw [List.find?_cons_of_neg _ (by simp [hpk]),
          List.find?_cons_of_neg _ (by simp [hpk])]
        exact ih

/-- Reading key `k` after JS property assignment `setField obj a v` yields
`v` when `k = a` and the previous value otherwise. -/
lemma getField_setField (obj : List (String × Val)) (a : String) (v : Val) (k : String) :
    getField (setField obj a v) k = if a = k then v else getField obj k := by
  unfold setField
  by_cases hmem : obj.any (fun p => p.1 = a) = true
  · rw [if_pos hmem]
    by_cases hak : a = k
    · subst hak
      unfold getField
      rw [find?_map_overwrite_eq obj a v hmem]
      simp
    · unfold getField
      rw [find?_map_overwrite_ne obj a v k hak, if_neg hak]
  · rw [if_neg hmem]
    unfold getField
    rw [List.find?_append]
    by_cases hak : a = k
    · subst hak
      have hno : obj.find? (fun p => p.1 = a) = none :=
        List.find?_eq_none.mpr (fun x hx hxa => hmem (List.any_eq_true.mpr ⟨x, hx, hxa⟩))
      rw [hno]
      simp [List.find?]
    · have h1 : List.find? (fun p => p.1 = k) [(a, v)] = none := by
        simp [List.find?, hak]
      rw [h1, if_neg hak]
      cases obj.find? (fun p => p.1 = k) <;> rfl

/-- Reading a key out of the object `buildRow` constructs returns the LAST
value the column list carries for that key (later columns overwrite
earlier ones), and NULL when the key never occurs. -/
lemma getField_buildRow_foldl (cols : List (String × Val)) (obj : List (String × Val))
    (k : String) :
    getField (cols.foldl (fun o p => setField o p.1 p.2) obj) k =
      (match cols.reverse.find? (fun p => p.1 = k) with
       | some q => q.2
       | none => getField obj k) := by
  induction cols generalizing obj with
  | nil => rfl
  | cons p rest ih =>
    rw [List.foldl_cons, ih, List.reverse_cons, List.find?_append]
    cases hf : rest.reverse.find? (fun q => q.1 = k) with
    | some q => rfl
    | none =>
      simp only [Option.none_or]
      rw [getField_setField]
      by_cases hpk : p.1 = k
      · simp [List.find?, hpk]
      · simp [List.find?, hpk]

/-- `getField` / `buildRow` composition: the row object reads back the
last occurrence of each selected column. -/
lemma getField_buildRow (cols : List (String × Val)) (k : String) :
    getField (buildRow cols) k =
      (match cols.reverse.find? (fun p => p.1 = k) with
       | some q => q.2
       | none => Val.null) := by
  unfold buildRow
  rw [getField_buildRow_foldl]
  cases cols.reverse.find? (fun p => p.1 = k) <;> rfl

/-- Claim C10: the row object GET /api/cases/:id builds from
SELECT kc.*, c.* assigns columns in order, so every column name shared by
kyc_cases and companies (id, user_id, status, risk_score, risk_level,
created_at, updated_at) ends up holding the joined company row's value,
and NULL when the LEFT JOIN finds no company — never the case's own
value; in particular the returned id is the company's id whenever a
company is joined. -/
theorem caseDetail_overlapping_columns_hold_company_values (kc : KycCase) (c : Company) :
    (getField (buildRow (caseColumns kc ++ companyColumns (some c))) "id" = Val.int c.id ∧
     getField (buildRow (caseColumns kc ++ companyColumns (some c))) "user_id" = Val.int c.user_id ∧
     getField (buildRow (caseColumns kc ++ companyColumns (some c))) "status" = Val.str c.status ∧
     getField (buildRow (caseColumns kc ++ companyColumns (some c))) "risk_score" = Val.int c.risk_score ∧
     getField (buildRow (caseColumns kc ++ companyColumns (some c))) "risk_level" = Val.str c.risk_level ∧
     getField (buildRow (caseColumns kc ++ companyColumns (some c))) "created_at" = Val.int c.created_at ∧
     getField (buildRow (caseColumns kc ++ companyColumns (some c))) "updated_at" = Val.int c.updated_at) ∧
    (getField (buildRow (caseColumns kc ++ companyColumns none)) "id" = Val.null ∧
     getField (buildRow (caseColumns kc ++ companyColumns none)) "user_id" = Val.null ∧
     getField (buildRow (caseColumns kc ++ companyColumns none)) "status" = Val.null ∧
     getField (buildRow (caseColumns kc ++ companyColumns none)) "risk_score" = Val.null ∧
     getField (buildRow (caseColumns kc ++ companyColumns none)) "risk_level" = Val.null ∧
     getField (buildRow (caseColumns kc ++ companyColumns none)) "created_at" = Val.null ∧
     getField (buildRow (caseColumns kc ++ companyColumns none)) "updated_at" = Val.null) := by
  refine ⟨⟨?_, ?_, ?_, ?_, ?_, ?_, ?_⟩, ⟨?_, ?_, ?_, ?_, ?_, ?_, ?_⟩⟩ <;>
    rw [getField_buildRow] <;> rfl

/-! ### Claim C2 machinery: set-semantics of steps_completed -/

/-- One completed-status step update on a row whose steps_completed holds
the step at most once leaves it there exactly once. -/
lemma stepUpdate_count_completed (kc : KycCase) (s : Int) (n : Nat)
    (h : kc.steps_completed.count s ≤ 1) :
    (stepUpdate kc s "completed" n).steps_completed.count s = 1 := by
  have hsteps : (stepUpdate kc s "completed" n).steps_completed =
      if s ∈ kc.steps_completed then kc.steps_completed
      else kc.steps_completed ++ [s] := by
    unfold stepUpdate
    by_cases hmem : s ∈ kc.steps_completed <;> simp [hmem]
  rw [hsteps]
  by_cases hmem : s ∈ kc.steps_completed
  · rw [if_pos hmem]
    exact Nat.le_antisymm h (List.count_pos_iff.mpr hmem)
  · rw [if_neg hmem, List.count_append, List.count_eq_zero.mpr hmem]
    simp

/-- The UPDATE keyed by id alone: replacing the found row preserves the id
column list of kyc_cases. -/
lemma update_preserves_ids (cases : List KycCase) (cid : Nat) (kc' : KycCase)
    (hid : kc'.id = cid) :
    (cases.map (fun c => if c.id = cid then kc' else c)).map (fun c => c.id) =
      cases.map (fun c => c.id) := by
  rw [List.map_map]
  apply List.map_congr_left
  intro c _
  by_cases hc : c.id = cid
  · simp [Function.comp, hc, hid]
  · simp [Function.comp, hc]

/-- With pairwise-distinct case ids, the row the scoped SELECT finds after
the UPDATE is exactly the replaced row. -/
lemma find?_after_update (cases : List KycCase) (cid uid : Nat) (kc0 kc' : KycCase)
    (hnd : (cases.map (fun c => c.id)).Nodup)
    (hfind : cases.find? (fun c => c.id = cid && c.user_id = uid) = some kc0)
    (hid : kc'.id = kc0.id) (huid : kc'.user_id = kc0.user_id) :
    (cases.map (fun c => if c.id = cid then kc' else c)).find?
      (fun c => c.id = cid && c.user_id = uid) = some kc' := by
  have hp0 : kc0.id = cid ∧ kc0.user_id = uid := by
    have := List.find?_some hfind
    simpa using this
  induction cases with
  | nil => exact absurd hfind (by simp)
  | cons c rest ih =>
    rw [List.map_cons]
    rw [List.map_cons, List.nodup_cons] at hnd
    by_cases hcc : c.id = cid
    · rw [if_pos hcc]
      by_cases hcu : c.user_id = uid
      · have hc0 : kc0 = c := by
          rw [List.find?_cons_of_pos _ (by simp [hcc, hcu])] at hfind
          exact (Option.some.inj hfind).symm
        exact List.find?_cons_of_pos _ (by
          simp [hid, hc0, hcc, huid, hcu])
      · rw [List.find?_cons_of_neg _ (by simp [hcu])] at hfind
        have hk0mem : kc0 ∈ rest := List.mem_of_find?_eq_some hfind
        have : kc0.id ∈ rest.map (fun c => c.id) := List.mem_map.mpr ⟨kc0, hk0mem, rfl⟩
        rw [hp0.1] at this
        rw [hcc] at hnd
        exact absurd this hnd.1
    · rw [if_neg hcc]
      rw [List.find?_cons_of_neg _ (by simp [hcc])] at hfind
      rw [List.find?_cons_of_neg _ (by simp [hcc])]
      exact ih hnd.2 hfind

/-- Under distinct ids, one successful completed-step call keeps the row
findable, keeps the ids intact, and forces the step count to exactly 1. -/
lemma advanceStep_completed_inv (db : Db) (uid cid : Nat) (s : Int) (n : Nat)
    (kc0 : KycCase)
    (hnd : (db.cases.map (fun c => c.id)).Nodup)
    (hfind : db.cases.find? (fun c => c.id = cid && c.user_id = uid) = some kc0)
    (hcount : kc0.steps_completed.count s ≤ 1) :
    let db' := (advanceStep db uid cid s "completed" n).2
    (db'.cases.find? (fun c => c.id = cid && c.user_id = uid) =
        some (stepUpdate kc0 s "completed" n)) ∧
    (db'.cases.map (fun c => c.id)).Nodup ∧
    (stepUpdate kc0 s "completed" n).steps_completed.count s = 1 := by
  have hp0 : kc0.id = cid ∧ kc0.user_id = uid := by
    have := List.find?_some hfind
    simpa using this
  have hdb' : (advanceStep db uid cid s "completed" n).2 =
      { db with cases := db.cases.map (fun c => if c.id = cid then stepUpdate kc0 s "completed" n else c) } := by
    unfold advanceStep
    rw [hfind]
  refine ⟨?_, ?_, stepUpdate_count_completed kc0 s n hcount⟩
  · rw [hdb']
    exact find?_after_update db.cases cid uid kc0 _ hnd hfind rfl rfl
  · rw [hdb']
    have hupd := update_preserves_ids db.cases cid (stepUpdate kc0 s "completed" n)
      (show (stepUpdate kc0 s "completed" n).id = cid from hp0.1)
    simpa [hupd] using hnd

/-- Once the count is exactly 1, any further same-step completed calls
keep it at 1. -/
lemma advanceSeq_keeps_count_one (uid cid : Nat) (s : Int) (times : List Nat) :
    ∀ (db : Db) (kc0 : KycCase),
    (db.cases.map (fun c => c.id)).Nodup →
    db.cases.find? (fun c => c.id = cid && c.user_id = uid) = some kc0 →
    kc0.steps_completed.count s = 1 →
    ∃ kc', (advanceSeq db uid cid s "completed" times).cases.find?
             (fun c => c.id = cid && c.user_id = uid) = some kc' ∧
           kc'.steps_completed.count s = 1 := by
  induction times with
  | nil => exact fun db kc0 _ hfind hcount => ⟨kc0, hfind, hcount⟩
  | cons n rest ih =>
    intro db kc0 hnd hfind hcount
    obtain ⟨hfind', hnd', hcnt'⟩ :=
      advanceStep_completed_inv db uid cid s n kc0 hnd hfind (Nat.le_of_eq hcount)
    exact ih _ _ hnd' hfind' hcnt'

/-- Claim C2: a nonempty sequence of advance_step calls all carrying step
s and status "completed" leaves s in the stored case's steps_completed
exactly once (idempotent set insertion, given the case starts with at
most one copy of s, as every reachable case does); and after any single
advance_step(case, s) call that finds its case, the returned row's
current_step equals s, regardless of prior state or status value. -/
theorem advanceStep_set_semantics_and_last_write_wins (db : Db) (uid cid : Nat)
    (s : Int) (kc0 : KycCase)
    (hnd : (db.cases.map (fun c => c.id)).Nodup)
    (hfind : db.cases.find? (fun c => c.id = cid && c.user_id = uid) = some kc0)
    (hcount : kc0.steps_completed.count s ≤ 1) :
    (∀ times : List Nat, times ≠ [] →
      ∃ kc', (advanceSeq db uid cid s "completed" times).cases.find?
               (fun c => c.id = cid && c.user_id = uid) = some kc' ∧
             kc'.steps_completed.count s = 1) ∧
    (∀ (db₂ : Db) (status : String) (n : Nat) (kc' : KycCase),
      (advanceStep db₂ uid cid s status n).1 = Except.ok kc' →
      kc'.current_step = s) := by
  constructor
  · intro times htimes
    match times with
    | [] => exact absurd rfl htimes
    | n :: rest =>
        obtain ⟨hfind', hnd', hcnt'⟩ :=
          advanceStep_completed_inv db uid cid s n kc0 hnd hfind hcount
        exact advanceSeq_keeps_count_one uid cid s rest _ _ hnd' hfind' hcnt'
  · intro db₂ status n kc' h
    unfold advanceStep at h
    cases hf : db₂.cases.find? (fun c => c.id = cid && c.user_id = uid) with
    | none => rw [hf] at h; exact absurd h (by simp)
    | some kc =>
        rw [hf] at h
        simp only [Except.ok.injEq] at h
        rw [← h]
        rfl

/-- Witness for C2: on the freshly created case (steps_completed [1]),
completing step 3 twice leaves steps_completed holding 3 exactly once,
and a single call returns current_step = 3. -/
theorem advanceStep_set_semantics_witness :
    ∃ kc', (advanceSeq ((createCase {} 1 { company_name := some "Acme GmbH" } 100 7 42).2)
              1 1 3 "completed" [200, 300]).cases.find?
             (fun c => c.id = 1 && c.user_id = 1) = some kc' ∧
           kc'.steps_completed.count 3 = 1 :=
  (advanceStep_set_semantics_and_last_write_wins
      ((createCase {} 1 { company_name := some "Acme GmbH" } 100 7 42).2) 1 1 3
      { id := 1, user_id := 1, company_id := some 1, case_number := "KYC-100-42",
        current_step := 1, steps_completed := [1], step_status := [(1, "in_progress")],
        created_at := 100, updated_at := 100 }
      (by decide) (by decide) (by decide)).1 [200, 300] (by decide)

/-! ### Claims C1, C4, C5: what a committed create_case call looks like -/

/-- Characterization of a successful POST /api/cases: the committed case
starts at step 1 with steps_completed [1] and status "pending"; its
company_id, when present, references a company row in the committed
state, and is present whenever the request carried an id or a truthy
name; and exactly the three pending check stubs are appended. -/
lemma createCase_ok_inv (db : Db) (uid : Nat) (req : CreateCaseReq)
    (now r₁ r₂ : Nat) (kc : KycCase) (db' : Db)
    (h : createCase db uid req now r₁ r₂ = (Except.ok kc, db')) :
    kc.id = db.nextCaseId ∧
    kc.status = "pending" ∧
    kc.current_step = 1 ∧
    kc.steps_completed = [1] ∧
    kc.step_status = [(1, "in_progress")] ∧
    (∀ cid, kc.company_id = some cid → ∃ c ∈ db'.companies, c.id = cid) ∧
    ((req.company_id.isSome = true ∨ truthyName req.company_name = true) →
      kc.company_id.isSome = true) ∧
    db'.checks = db.checks ++
      [ { id := db.nextCheckId, case_id := db.nextCaseId, check_type := "pep",
          status := "pending", created_at := now },
        { id := db.nextCheckId + 1, case_id := db.nextCaseId, check_type := "sanctions",
          status := "pending", created_at := now },
        { id := db.nextCheckId + 2, case_id := db.nextCaseId, check_type := "adverse_media",
          status := "pending", created_at := now } ] := by
  simp only [createCase] at h
  by_cases hm : (req.company_id.isNone && truthyName req.company_name) = true
  · simp only [hm, if_true, List.any_append, List.any_cons, List.any_nil,
      decide_True, Bool.or_true, Bool.or_false, Bool.not_true, Bool.false_eq_true,
      if_false] at h
    split at h
    · exact absurd h (by simp)
    · rw [Prod.mk.injEq, Except.ok.injEq] at h
      obtain ⟨hkc, hdb⟩ := h
      subst hkc; subst hdb
      refine ⟨rfl, rfl, rfl, rfl, rfl, ?_, fun _ => rfl, rfl⟩
      intro cid hcid
      simp only [Option.some.injEq] at hcid
      exact ⟨_, List.mem_append_right _ (List.mem_singleton.mpr rfl), hcid⟩
  · have hm' : (req.company_id.isNone && truthyName req.company_name) = false :=
      Bool.not_eq_true _ ▸ (by simpa using hm)
    simp only [hm', Bool.false_eq_true, if_false] at h
    cases hco : req.company_id with
    | none =>
        rw [hco] at h
        simp only [Bool.not_true, Bool.false_eq_true, if_false] at h
        split at h
        · exact absurd h (by simp)
        · rw [Prod.mk.injEq, Except.ok.injEq] at h
          obtain ⟨hkc, hdb⟩ := h
          subst hkc; subst hdb
          refine ⟨rfl, rfl, rfl, rfl, rfl, ?_, ?_, rfl⟩
          · intro cid hcid
            exact absurd hcid (by simp [hco])
          · intro hyp
            rcases hyp with hyp | hyp
            · simp [hco] at hyp
            · have htr : truthyName req.company_name = false := by
                simpa [hco] using hm'
              rw [htr] at hyp
              exact absurd hyp (by simp)
    | some cid₀ =>
        rw [hco] at h
        cases hany : db.companies.any (fun c => c.id = cid₀) with
        | false =>
            simp [hany] at h
        | true =>
            simp only [hany, Bool.not_true, Bool.false_eq_true, if_false] at h
            split at h
            · exact absurd h (by simp)
            · rw [Prod.mk.injEq, Except.ok.injEq] at h
              obtain ⟨hkc, hdb⟩ := h
              subst hkc; subst hdb
              refine ⟨rfl, rfl, rfl, rfl, rfl, ?_, fun _ => rfl, rfl⟩
              intro cid hcid
              simp only [Option.some.injEq] at hcid
              subst hcid
              rcases List.any_eq_true.mp hany with ⟨c, hc, hcid⟩
              exact ⟨c, hc, by simpa using hcid⟩

/-- A committed create_case call leaves, for each supported check type,
exactly one compliance_checks row keyed to the new case, and that row is
pending — provided no pre-existing check row already referenced the id
the SERIAL sequence hands to the new case (which the sequence guarantees). -/
lemma createCase_checks_per_type (db : Db) (uid : Nat) (req : CreateCaseReq)
    (now r₁ r₂ : Nat) (kc : KycCase) (db' : Db)
    (hfresh : ∀ cc ∈ db.checks, cc.case_id ≠ db.nextCaseId)
    (h : createCase db uid req now r₁ r₂ = (Except.ok kc, db')) :
    ∀ t ∈ (["pep", "sanctions", "adverse_media"] : List String),
      (db'.checks.filter (fun cc => cc.case_id = kc.id && cc.check_type = t)).length = 1 ∧
      ∀ cc ∈ db'.checks.filter (fun cc => cc.case_id = kc.id && cc.check_type = t),
        cc.status = "pending" := by
  obtain ⟨hid, -, -, -, -, -, -, hchecks⟩ :=
    createCase_ok_inv db uid req now r₁ r₂ kc db' h
  intro t ht
  rw [hchecks, List.filter_append]
  have hold : db.checks.filter (fun cc => cc.case_id = kc.id && cc.check_type = t) = [] := by
    apply List.filter_eq_nil_iff.mpr
    intro cc hcc
    simp [hid, hfresh cc hcc]
  rw [hold, List.nil_append, hid]
  simp only [List.mem_cons, List.mem_singleton, List.not_mem_nil, or_false] at ht
  rcases ht with rfl | rfl | rfl <;> simp [List.filter]

/-- Claim C1 (amended): for every create_case call that supplies an
existing company id, or no id but a (truthy) company name, the committed
case resolves to a company present in the committed state (reused or
newly created), and exactly one pending ComplianceCheck row exists for
the new case per supported check_type. -/
theorem createCase_resolves_company (db : Db) (uid : Nat) (req : CreateCaseReq)
    (now r₁ r₂ : Nat) (kc : KycCase) (db' : Db)
    (hreq : req.company_id.isSome = true ∨ truthyName req.company_name = true)
    (hfresh : ∀ cc ∈ db.checks, cc.case_id ≠ db.nextCaseId)
    (h : createCase db uid req now r₁ r₂ = (Except.ok kc, db')) :
    (∃ c ∈ db'.companies, kc.company_id = some c.id) ∧
    (∀ t ∈ (["pep", "sanctions", "adverse_media"] : List String),
      (db'.checks.filter (fun cc => cc.case_id = kc.id && cc.check_type = t)).length = 1 ∧
      ∀ cc ∈ db'.checks.filter (fun cc => cc.case_id = kc.id && cc.check_type = t),
        cc.status = "pending") := by
  obtain ⟨-, -, -, -, -, hcomp, hsome, -⟩ :=
    createCase_ok_inv db uid req now r₁ r₂ kc db' h
  refine ⟨?_, createCase_checks_per_type db uid req now r₁ r₂ kc db' hfresh h⟩
  have hs := hsome hreq
  cases hc : kc.company_id with
  | none => rw [hc] at hs; exact absurd hs (by simp)
  | some cid =>
      obtain ⟨c, hcmem, hcid⟩ := hcomp cid hc
      exact ⟨c, hcmem, by rw [hcid]⟩

/-- Witness for C1 (amended): create_case(owner 1, company_name
"Acme GmbH") on an empty database resolves to the newly created company
and owns exactly one pending "pep" check row. -/
theorem createCase_resolves_company_witness :
    ∃ kc db', createCase {} 1 { company_name := some "Acme GmbH" } 100 7 42 =
        (Except.ok kc, db') ∧
      (∃ c ∈ db'.companies, kc.company_id = some c.id) ∧
      (db'.checks.filter (fun cc => cc.case_id = kc.id && cc.check_type = "pep")).length = 1 :=
  ⟨_, _, rfl,
    (createCase_resolves_company {} 1 { company_name := some "Acme GmbH" } 100 7 42 _ _
      (Or.inr (by decide)) (by decide) rfl).1,
    ((createCase_resolves_company {} 1 { company_name := some "Acme GmbH" } 100 7 42 _ _
      (Or.inr (by decide)) (by decide) rfl).2 "pep" (by decide)).1⟩

/-- Claim C5 (amended): a freshly created case has status "pending" and
current_step = 1, but its steps_completed is {1} — the INSERT hard-codes
steps_completed = [1] and step_status = step 1 in_progress — and three
pending ComplianceCheck rows (one per check_type) are attached. -/
theorem createCase_start_state (db : Db) (uid : Nat) (req : CreateCaseReq)
    (now r₁ r₂ : Nat) (kc : KycCase) (db' : Db)
    (hfresh : ∀ cc ∈ db.checks, cc.case_id ≠ db.nextCaseId)
    (h : createCase db uid req now r₁ r₂ = (Except.ok kc, db')) :
    kc.status = "pending" ∧ kc.current_step = 1 ∧ kc.steps_completed = [1] ∧
    kc.step_status = [(1, "in_progress")] ∧
    (∀ t ∈ (["pep", "sanctions", "adverse_media"] : List String),
      (db'.checks.filter (fun cc => cc.case_id = kc.id && cc.check_type = t)).length = 1 ∧
      ∀ cc ∈ db'.checks.filter (fun cc => cc.case_id = kc.id && cc.check_type = t),
        cc.status = "pending") := by
  obtain ⟨-, h1, h2, h3, h4, -, -, -⟩ :=
    createCase_ok_inv db uid req now r₁ r₂ kc db' h
  exact ⟨h1, h2, h3, h4, createCase_checks_per_type db uid req now r₁ r₂ kc db' hfresh h⟩

/-- Witness for C5 (amended): the concrete scenario create_case(owner 1,
company_name "Acme GmbH") on an empty database. -/
theorem createCase_start_state_witness :
    ∃ kc db', createCase {} 1 { company_name := some "Acme GmbH" } 100 7 42 =
        (Except.ok kc, db') ∧
      kc.status = "pending" ∧ kc.current_step = 1 ∧ kc.steps_completed = [1] :=
  ⟨_, _, rfl,
    (createCase_start_state {} 1 { company_name := some "Acme GmbH" } 100 7 42 _ _
      (by decide) rfl).1,
    (createCase_start_state {} 1 { company_name := some "Acme GmbH" } 100 7 42 _ _
      (by decide) rfl).2.1,
    (createCase_start_state {} 1 { company_name := some "Acme GmbH" } 100 7 42 _ _
      (by decide) rfl).2.2.1⟩

/-- Characterization of a failed POST /api/cases: the ROLLBACK path
returns the database unchanged, and the surfaced error is a persistence
failure (caught SQL exception → 500). -/
lemma createCase_error_inv (db : Db) (uid : Nat) (req : CreateCaseReq)
    (now r₁ r₂ : Nat) (e : Err) (db' : Db)
    (h : createCase db uid req now r₁ r₂ = (Except.error e, db')) :
    db' = db ∧ ∃ msg, e = Err.persistence msg := by
  simp only [createCase] at h
  by_cases hm : (req.company_id.isNone && truthyName req.company_name) = true
  · simp only [hm, if_true, List.any_append, List.any_cons, List.any_nil,
      decide_True, Bool.or_true, Bool.or_false, Bool.not_true, Bool.false_eq_true,
      if_false] at h
    split at h
    · rw [Prod.mk.injEq] at h
      exact ⟨h.2.symm, _, (Except.error.inj h.1).symm⟩
    · exact absurd h (by simp)
  · have hm' : (req.company_id.isNone && truthyName req.company_name) = false := by
      simpa using hm
    simp only [hm', Bool.false_eq_true, if_false] at h
    cases hco : req.company_id with
    | none =>
        rw [hco] at h
        simp only [Bool.not_true, Bool.false_eq_true, if_false] at h
        split at h
        · rw [Prod.mk.injEq] at h
          exact ⟨h.2.symm, _, (Except.error.inj h.1).symm⟩
        · exact absurd h (by simp)
    | some cid₀ =>
        rw [hco] at h
        cases hany : db.companies.any (fun c => c.id = cid₀) with
        | false =>
            simp only [hany, Bool.not_false, if_true] at h
            rw [Prod.mk.injEq] at h
            exact ⟨h.2.symm, _, (Except.error.inj h.1).symm⟩
        | true =>
            simp only [hany, Bool.not_true, Bool.false_eq_true, if_false] at h
            split at h
            · rw [Prod.mk.injEq] at h
              exact ⟨h.2.symm, _, (Except.error.inj h.1).symm⟩
            · exact absurd h (by simp)

/-- Claim C4: create_case's multi-table write is all-or-nothing.  Every
execution either fails with a persistence error and leaves the database
exactly as it was (BEGIN … ROLLBACK), or commits the new case together
with its three pending compliance checks and — when the request created a
company — the new company row (BEGIN … COMMIT). -/
theorem createCase_atomic (db : Db) (uid : Nat) (req : CreateCaseReq)
    (now r₁ r₂ : Nat) (res : Except Err KycCase) (db' : Db)
    (h : createCase db uid req now r₁ r₂ = (res, db')) :
    (∃ msg, res = Except.error (Err.persistence msg) ∧ db' = db) ∨
    (∃ kc, res = Except.ok kc ∧ kc ∈ db'.cases ∧
      (∀ t ∈ (["pep", "sanctions", "adverse_media"] : List String),
        ∃ cc ∈ db'.checks, cc.case_id = kc.id ∧ cc.check_type = t ∧ cc.status = "pending") ∧
      ((req.company_id.isNone && truthyName req.company_name) = true →
        ∃ c ∈ db'.companies, kc.company_id = some c.id)) := by
  cases res with
  | error e =>
      obtain ⟨hdb, msg, hmsg⟩ := createCase_error_inv db uid req now r₁ r₂ e db' h
      exact Or.inl ⟨msg, by rw [hmsg], hdb⟩
  | ok kc =>
      right
      obtain ⟨hid, -, -, -, -, hcomp, hsome, hchecks⟩ :=
        createCase_ok_inv db uid req now r₁ r₂ kc db' h
      have hmem : kc ∈ db'.cases := by
        simp only [createCase] at h
        by_cases hm : (req.company_id.isNone && truthyName req.company_name) = true
        · simp only [hm, if_true, List.any_append, List.any_cons, List.any_nil,
            decide_True, Bool.or_true, Bool.or_false, Bool.not_true, Bool.false_eq_true,
            if_false] at h
          split at h
          · exact absurd h (by simp)
          · rw [Prod.mk.injEq, Except.ok.injEq] at h
            obtain ⟨hkc, hdb⟩ := h
            subst hkc; subst hdb
            simp
        · have hm' : (req.company_id.isNone && truthyName req.company_name) = false := by
            simpa using hm
          simp only [hm', Bool.false_eq_true, if_false] at h
          cases hco : req.company_id with
          | none =>
              rw [hco] at h
              simp only [Bool.not_true, Bool.false_eq_true, if_false] at h
              split at h
              · exact absurd h (by simp)
              · rw [Prod.mk.injEq, Except.ok.injEq] at h
                obtain ⟨hkc, hdb⟩ := h
                subst hkc; subst hdb
                simp
          | some cid₀ =>
              rw [hco] at h
              cases hany : db.companies.any (fun c => c.id = cid₀) with
              | false => simp [hany] at h
              | true =>
                  simp only [hany, Bool.not_true, Bool.false_eq_true, if_false] at h
                  split at h
                  · exact absurd h (by simp)
                  · rw [Prod.mk.injEq, Except.ok.injEq] at h
                    obtain ⟨hkc, hdb⟩ := h
                    subst hkc; subst hdb
                    simp
      refine ⟨kc, rfl, hmem, ?_, ?_⟩
      · intro t ht
        simp only [List.mem_cons, List.mem_singleton, List.not_mem_nil, or_false] at ht
        rw [hchecks]
        rcases ht with rfl | rfl | rfl
        · exact ⟨_, List.mem_append_right _ (List.mem_cons_self _ _), by rw [hid], rfl, rfl⟩
        · exact ⟨_, List.mem_append_right _
            (List.mem_cons_of_mem _ (List.mem_cons_self _ _)), by rw [hid], rfl, rfl⟩
        · exact ⟨_, List.mem_append_right _
            (List.mem_cons_of_mem _ (List.mem_cons_of_mem _ (List.mem_cons_self _ _))),
            by rw [hid], rfl, rfl⟩
      · intro hm
        have hs : kc.company_id.isSome = true := by
          apply hsome
          exact Or.inr (Bool.and_elim_right hm)
        cases hc : kc.company_id with
        | none => rw [hc] at hs; exact absurd hs (by simp)
        | some cid =>
            obtain ⟨c, hcmem, hcid⟩ := hcomp cid hc
            exact ⟨c, hcmem, by rw [hcid]⟩

/-- Witness for C4: the atomicity disjunction evaluated on the concrete
create_case(owner 1, company_name "Acme GmbH") call on an empty database. -/
theorem createCase_atomic_witness :
    (∃ msg, (createCase {} 1 { company_name := some "Acme GmbH" } 100 7 42).1 =
        Except.error (Err.persistence msg) ∧
      (createCase {} 1 { company_name := some "Acme GmbH" } 100 7 42).2 = {}) ∨
    (∃ kc, (createCase {} 1 { company_name := some "Acme GmbH" } 100 7 42).1 = Except.ok kc ∧
      kc ∈ (createCase {} 1 { company_name := some "Acme GmbH" } 100 7 42).2.cases ∧
      (∀ t ∈ (["pep", "sanctions", "adverse_media"] : List String),
        ∃ cc ∈ (createCase {} 1 { company_name := some "Acme GmbH" } 100 7 42).2.checks,
          cc.case_id = kc.id ∧ cc.check_type = t ∧ cc.status = "pending") ∧
      ((({} : CreateCaseReq).company_id.isNone &&
          truthyName (some "Acme GmbH" : Option String)) = true →
        ∃ c ∈ (createCase {} 1 { company_name := some "Acme GmbH" } 100 7 42).2.companies,
          kc.company_id = some c.id)) := by
  have := createCase_atomic {} 1 { company_name := some "Acme GmbH" } 100 7 42
    (createCase {} 1 { company_name := some "Acme GmbH" } 100 7 42).1
    (createCase {} 1 { company_name := some "Acme GmbH" } 100 7 42).2 rfl
  exact this

end NexusKYC
